import Mathlib

/-
  Verification of the core of the livekit DeepFilterNet3 noise-filter package:
  * the single-producer/single-consumer wait-free RingBuffer and its
    AudioWriter/AudioReader facades (src/worker/RingBuffer.ts),
  * the adaptive suppression-level controller and the real-time `process`
    tick of the in-worklet AudioWorkletProcessor (src/worklet/DeepFilterWorklet.ts),
  * the SET_SUPPRESSION_LEVEL handlers of the SAB worker
    (src/worker/DeepFilterWorker.ts) and of the in-worklet processor.

  Sample values are modelled as rationals (the buffer logic is value-agnostic;
  the controller's arithmetic is modelled exactly over ℚ, with `Math.sqrt`
  treated as an abstract function characterized by `s * s = x ∧ 0 ≤ s` at the
  points where a theorem needs it).  Machine indices are Nat with the `% n`
  the JavaScript source performs written explicitly.
-/

namespace DeepFilter

/-! ### The element-wise copy loop of RingBuffer.copy

`copy(input, offsetInput, output, offsetOutput, size)` runs
`for (i = 0; i < size; i++) output[offsetOutput+i] = input[offsetInput+i]`;
the recursion below performs the iterations in the same ascending order. -/

/-- RingBuffer.copy: copy `size` elements of `input` starting at `offsetInput`
into `output` starting at `offsetOutput`. -/
def copy (input : List ℚ) (offsetInput : Nat) (output : List ℚ) (offsetOutput : Nat)
    (size : Nat) : List ℚ :=
  match size with
  | 0 => output
  | s + 1 =>
      copy input (offsetInput + 1) (output.set offsetOutput (input.getD offsetInput 0))
        (offsetOutput + 1) s

/-! ### The RingBuffer (src/worker/RingBuffer.ts)

The state a constructed `RingBuffer` object holds: `_capacity` (the slot count
of the backing storage, counting the permanently reserved empty slot), the two
shared index cells and the storage view.  `push`/`pop` below are the source
methods with the atomic loads/stores made plain reads/writes: every claim here
is about a single-threaded execution (no concurrent operations). -/

structure RingBuffer where
  cap : Nat
  write_ptr : Nat
  read_ptr : Nat
  storage : List ℚ
deriving DecidableEq, Repr

/-- storageCapacity(): slot count of the storage, counting the empty slot. -/
def RingBuffer.storageCapacity (rb : RingBuffer) : Nat := rb.cap

/-- capacity(): the usable element count (`_capacity - 1`). -/
def RingBuffer.capacity (rb : RingBuffer) : Nat := rb.cap - 1

/-- availableReadInternal(rd, wr). -/
def RingBuffer.availableReadInternal (rb : RingBuffer) (rd wr : Nat) : Nat :=
  (wr + rb.storageCapacity - rd) % rb.storageCapacity

/-- availableWriteInternal(rd, wr). -/
def RingBuffer.availableWriteInternal (rb : RingBuffer) (rd wr : Nat) : Nat :=
  rb.capacity - rb.availableReadInternal rd wr

/-- availableRead(). -/
def RingBuffer.availableRead (rb : RingBuffer) : Nat :=
  rb.availableReadInternal rb.read_ptr rb.write_ptr

/-- availableWrite(). -/
def RingBuffer.availableWrite (rb : RingBuffer) : Nat :=
  rb.availableWriteInternal rb.read_ptr rb.write_ptr

/-- empty(). -/
def RingBuffer.isEmpty (rb : RingBuffer) : Bool := rb.write_ptr == rb.read_ptr

/-- full(). -/
def RingBuffer.isFull (rb : RingBuffer) : Bool :=
  (rb.write_ptr + 1) % rb.storageCapacity == rb.read_ptr

/-- push(elements, length?, offset): returns the written count and the new
buffer state.  The two `copy` calls are the at-most-two contiguous spans
(tail span starting at the write index, then the wrapped head span at 0). -/
def RingBuffer.push (rb : RingBuffer) (elements : List ℚ) (length? : Option Nat)
    (offset : Nat) : Nat × RingBuffer :=
  let rd := rb.read_ptr
  let wr := rb.write_ptr
  if (wr + 1) % rb.storageCapacity = rd then
    (0, rb)
  else
    let len := length?.getD elements.length
    let toWrite := min (rb.availableWriteInternal rd wr) len
    let firstPart := min (rb.storageCapacity - wr) toWrite
    let secondPart := toWrite - firstPart
    let s1 := copy elements offset rb.storage wr firstPart
    let s2 := copy elements (offset + firstPart) s1 0 secondPart
    (toWrite, { rb with storage := s2, write_ptr := (wr + toWrite) % rb.storageCapacity })

/-- pop(elements, length?, offset): returns the read count, the destination
array after the copy, and the new buffer state. -/
def RingBuffer.pop (rb : RingBuffer) (elements : List ℚ) (length? : Option Nat)
    (offset : Nat) : Nat × List ℚ × RingBuffer :=
  let rd := rb.read_ptr
  let wr := rb.write_ptr
  if wr = rd then
    (0, elements, rb)
  else
    let len := length?.getD elements.length
    let toRead := min (rb.availableReadInternal rd wr) len
    let firstPart := min (rb.storageCapacity - rd) toRead
    let secondPart := toRead - firstPart
    let e1 := copy rb.storage rd elements offset firstPart
    let e2 := copy rb.storage 0 e1 (offset + firstPart) secondPart
    (toRead, e2, { rb with read_ptr := (rd + toRead) % rb.storageCapacity })

/-- AudioWriter.enqueue(buf): forwards to push. -/
def AudioWriter.enqueue (rb : RingBuffer) (buf : List ℚ) : Nat × RingBuffer :=
  rb.push buf none 0

/-- AudioReader.dequeue(buf): returns 0 when the buffer is empty, otherwise
forwards to pop. -/
def AudioReader.dequeue (rb : RingBuffer) (buf : List ℚ) : Nat × List ℚ × RingBuffer :=
  if rb.isEmpty then (0, buf, rb) else rb.pop buf none 0

/-! ### Allocation and construction -/

/-- getStorageForCapacity(capacity, type): byte length of the allocated
SharedArrayBuffer, `8 + (capacity + 1) * BYTES_PER_ELEMENT`.  The source
performs no validation of `capacity`. -/
def getStorageForCapacity (capacity bpe : Nat) : Nat :=
  8 + (capacity + 1) * bpe

/-- The RingBuffer constructor: builds the two Uint32 index views (a RangeError
when the buffer cannot hold the 8-byte header) and the storage view of
`_capacity = (byteLength - 8) / BYTES_PER_ELEMENT` elements, all
zero-initialized as a fresh SharedArrayBuffer is. -/
def RingBuffer.construct (byteLength bpe : Nat) : Option RingBuffer :=
  if 8 ≤ byteLength then
    some ⟨(byteLength - 8) / bpe, 0, 0, List.replicate ((byteLength - 8) / bpe) 0⟩
  else
    none

/-! ### The adaptive suppression controller
(src/worklet/DeepFilterWorklet.ts, in-worklet variant)

`Math.sqrt` is kept abstract: the functions take a `sqrt : ℚ → ℚ` parameter
and each theorem that depends on the root's value carries the hypothesis
`sqrt x * sqrt x = x` (with `0 ≤ sqrt x` where needed) at the point it is
applied, which is exactly what pins down the real square root. -/

/-- The mean square of a frame: the `sum / frame.length` that
calculateRMS computes under its `Math.sqrt`. -/
def calculateRMSSq (frame : List ℚ) : ℚ :=
  (frame.foldl (fun s x => s + x * x) 0) / (frame.length : ℚ)

/-- The crossings counter of calculateZCR: the number of indices `i ≥ 1` with
`(frame[i] ≥ 0 ∧ frame[i-1] < 0) ∨ (frame[i] < 0 ∧ frame[i-1] ≥ 0)`. -/
def countCrossings : List ℚ → Nat
  | x :: y :: rest =>
      (if (0 ≤ y ∧ x < 0) ∨ (y < 0 ∧ 0 ≤ x) then 1 else 0) + countCrossings (y :: rest)
  | _ => 0

/-- calculateZCR(frame) = crossings / frame.length. -/
def calculateZCR (frame : List ℚ) : ℚ :=
  (countCrossings frame : ℚ) / (frame.length : ℚ)

/-- calculateSpectralCentroid(frame): magnitude-weighted mean sample index,
0 when the magnitude sum is not positive. -/
def calculateSpectralCentroid (frame : List ℚ) : ℚ :=
  let weightedSum := frame.enum.foldl (fun s p => s + (p.1 : ℚ) * |p.2|) 0
  let magnitudeSum := frame.foldl (fun s x => s + |x|) 0
  if 0 < magnitudeSum then weightedSum / magnitudeSum else 0

def silenceEnergyThreshold : ℚ := 1 / 1000

def speechEnergyThreshold : ℚ := 1 / 100

def speechZcrMin : ℚ := 1 / 20

def speechZcrMax : ℚ := 7 / 20

def smoothingFactor : ℚ := 3 / 10

def historySize : Nat := 20

/-- The analysis state the controller reads and mutates. -/
structure AnalysisState where
  energyHistory : List ℚ
  zcRateHistory : List ℚ
  manualSuppressionLevel : ℚ
  currentSuppressionLevel : ℚ
deriving DecidableEq, Repr

/-- History update of calculateDynamicSuppressionLevel: push the new rms and
zcr, then shift (drop the oldest of) both histories once the energy history
exceeds `historySize`. -/
def updateHistories (a : AnalysisState) (rms zcr : ℚ) : List ℚ × List ℚ :=
  let eh := a.energyHistory ++ [rms]
  let zh := a.zcRateHistory ++ [zcr]
  if historySize < eh.length then (eh.tail, zh.tail) else (eh, zh)

/-- `reduce((a, b) => a + b, 0) / length` as used for the history averages. -/
def listAvg (l : List ℚ) : ℚ :=
  l.foldl (fun a b => a + b) 0 / (l.length : ℚ)

/-- The decision ladder of calculateDynamicSuppressionLevel mapping the frame
features to the unsmoothed target level. -/
def decisionTarget (rms avgEnergy avgZCR normalizedCentroid manualLevel : ℚ) : ℚ :=
  if rms < silenceEnergyThreshold then
    85
  else if speechEnergyThreshold < rms ∧ speechZcrMin < avgZCR ∧ avgZCR < speechZcrMax then
    let energyFactor := min 1 (rms / (1 / 10))
    let spectralFactor := normalizedCentroid
    max 30 (min 60 (60 - energyFactor * 20 - spectralFactor * 10))
  else if speechEnergyThreshold < rms ∧ speechZcrMax < avgZCR then
    45
  else if silenceEnergyThreshold < rms ∧ rms < speechEnergyThreshold then
    70 - avgEnergy / speechEnergyThreshold * 20
  else
    manualLevel

/-- The unsmoothed target level a call to calculateDynamicSuppressionLevel
computes: extract rms, zcr and centroid from the frame, refresh the
histories, average them, normalize the centroid by half the frame length, and
run the decision ladder. -/
def dynamicTargetLevel (sqrt : ℚ → ℚ) (a : AnalysisState) (frame : List ℚ) : ℚ :=
  let rms := sqrt (calculateRMSSq frame)
  let zcr := calculateZCR frame
  let centroid := calculateSpectralCentroid frame
  let h := updateHistories a rms zcr
  let avgEnergy := listAvg h.1
  let avgZCR := listAvg h.2
  let normalizedCentroid := min 1 (centroid / ((frame.length : ℚ) / 2))
  decisionTarget rms avgEnergy avgZCR normalizedCentroid a.manualSuppressionLevel

/-- The smoothing tail of calculateDynamicSuppressionLevel:
`Math.max(10, Math.min(95, Math.floor(current·(1−α) + target·α)))`, α = 0.3. -/
def applySmoothing (current target : ℚ) : Int :=
  let smoothed := current * (1 - smoothingFactor) + target * smoothingFactor
  max 10 (min 95 ⌊smoothed⌋)

/-- calculateDynamicSuppressionLevel(frame): the returned level together with
the updated (energy, zcr) histories. -/
def calculateDynamicSuppressionLevel (sqrt : ℚ → ℚ) (a : AnalysisState)
    (frame : List ℚ) : Int × List ℚ × List ℚ :=
  (applySmoothing a.currentSuppressionLevel (dynamicTargetLevel sqrt a frame),
   updateHistories a (sqrt (calculateRMSSq frame)) (calculateZCR frame))

/-! ### The in-worklet real-time tick
(DeepFilterAudioProcessor.process, in-worklet variant) -/

/-- The mutable state of the in-worklet DeepFilterAudioProcessor. -/
structure WorkletState where
  isInit : Bool
  dfModelSome : Bool
  bypass : Bool
  tempFrameSome : Bool
  dynamicSuppressionEnabled : Bool
  frameLength : Nat
  bufferSize : Nat
  inputBuffer : List ℚ
  outputBuffer : List ℚ
  inputWritePos : Nat
  inputReadPos : Nat
  outputWritePos : Nat
  outputReadPos : Nat
  analysis : AnalysisState
  attenLim : ℚ
deriving DecidableEq, Repr

/-- getInputAvailable(): `(inputWritePos - inputReadPos + bufferSize) % bufferSize`. -/
def getInputAvailable (st : WorkletState) : Nat :=
  (st.inputWritePos + st.bufferSize - st.inputReadPos) % st.bufferSize

/-- getOutputAvailable(). -/
def getOutputAvailable (st : WorkletState) : Nat :=
  (st.outputWritePos + st.bufferSize - st.outputReadPos) % st.bufferSize

/-- The `buffer[pos] = x; pos = (pos + 1) % bufferSize` write loop used for
both internal ring buffers. -/
def writeRing (buf : List ℚ) (pos size : Nat) : List ℚ → List ℚ × Nat
  | [] => (buf, pos)
  | x :: rest => writeRing (buf.set pos x) ((pos + 1) % size) size rest

/-- The `dst[i] = buffer[pos]; pos = (pos + 1) % bufferSize` read loop: returns
the `n` elements read and the final position. -/
def readRing (buf : List ℚ) (pos size : Nat) : Nat → List ℚ × Nat
  | 0 => ([], pos)
  | n + 1 =>
      let rest := readRing buf ((pos + 1) % size) size n
      (buf.getD pos 0 :: rest.1, rest.2)

/-- TypedArray.set / the `for (i = 0; i < 128; i++) outputChannel[i] = ...`
loops: overwrite the beginning of `dst` with `src`, keeping the tail. -/
def setFrom (dst src : List ℚ) : List ℚ :=
  src ++ dst.drop src.length

/-- Apply `f` to the first `n` entries of a list (the
`for (inputNum = 0; inputNum < sourceLimit; ...)` loops). -/
def mapWithin (f : List (List ℚ) → List (List ℚ)) : Nat → List (List (List ℚ)) →
    List (List (List ℚ))
  | 0, l => l
  | _ + 1, [] => []
  | n + 1, x :: xs => f x :: mapWithin f n xs

/-- The `while (getInputAvailable() >= frameLength)` loop of process: drain one
model frame, optionally retune the suppression level, run the model, append
the result to the output ring.  `fuel` bounds the iteration count; the caller
passes a bound that the loop can never reach while `frameLength ≥ 1` (each
iteration removes `frameLength` samples from a ring that holds fewer than
`bufferSize`). -/
def processFrames (sqrt : ℚ → ℚ) (procFrame : List ℚ → List ℚ) :
    Nat → WorkletState → WorkletState
  | 0, st => st
  | fuel + 1, st =>
    if st.frameLength ≤ getInputAvailable st then
      let fr := readRing st.inputBuffer st.inputReadPos st.bufferSize st.frameLength
      let st1 := { st with inputReadPos := fr.2 }
      let st2 :=
        if st1.dynamicSuppressionEnabled then
          let res := calculateDynamicSuppressionLevel sqrt st1.analysis fr.1
          let a1 := { st1.analysis with
            energyHistory := res.2.1, zcRateHistory := res.2.2 }
          if 1 ≤ |((res.1 : ℚ)) - st1.analysis.currentSuppressionLevel| then
            { st1 with
              analysis := { a1 with currentSuppressionLevel := (res.1 : ℚ) },
              attenLim := (res.1 : ℚ) }
          else
            { st1 with analysis := a1 }
        else st1
      let processed := procFrame fr.1
      let wr := writeRing st2.outputBuffer st2.outputWritePos st2.bufferSize processed
      processFrames sqrt procFrame fuel
        { st2 with outputBuffer := wr.1, outputWritePos := wr.2 }
    else st

/-- DeepFilterAudioProcessor.process (in-worklet variant): one real-time tick.
Takes the node/channel-structured input and output lists, returns the output
lists as left by the tick together with the new state.  When the processor is
not initialized, has no model, is bypassed, or has no temp frame, every output
channel is an explicit copy of the input; otherwise the input is buffered,
whole model frames are processed, and the outputs are only written when at
least 128 denoised samples are available — otherwise they are NOT touched. -/
def processTick (sqrt : ℚ → ℚ) (procFrame : List ℚ → List ℚ) (st : WorkletState)
    (inputList outputList : List (List (List ℚ))) :
    List (List (List ℚ)) × WorkletState :=
  let sourceLimit := min inputList.length outputList.length
  match inputList.head?.bind List.head? with
  | none => (outputList, st)
  | some input =>
    if ¬ st.isInit = true ∨ ¬ st.dfModelSome = true ∨ st.bypass = true ∨
        ¬ st.tempFrameSome = true then
      (mapWithin (fun node => node.map (fun ch => setFrom ch input)) sourceLimit outputList,
       st)
    else
      let wr := writeRing st.inputBuffer st.inputWritePos st.bufferSize input
      let st1 := { st with inputBuffer := wr.1, inputWritePos := wr.2 }
      let st2 := processFrames sqrt procFrame st1.bufferSize st1
      if 128 ≤ getOutputAvailable st2 then
        let out128 := (readRing st2.outputBuffer st2.outputReadPos st2.bufferSize 128).1
        (mapWithin (fun node => node.map (fun ch => setFrom ch out128)) sourceLimit
           outputList,
         { st2 with outputReadPos := (st2.outputReadPos + 128) % st2.bufferSize })
      else
        (outputList, st2)

/-! ### SET_SUPPRESSION_LEVEL handlers -/

/-- The SAB worker's SET_SUPPRESSION_LEVEL case (src/worker/DeepFilterWorker.ts):
`df_set_atten_lim` is called only when the model exists and the level lies in
[0, 100]; otherwise the message is dropped.  Returns the model's attenuation
limit after the message. -/
def workerSetSuppressionLevel (dfModelSome : Bool) (attenLim newLevel : ℚ) : ℚ :=
  if dfModelSome = true ∧ 0 ≤ newLevel ∧ newLevel ≤ 100 then newLevel else attenLim

/-- The levels the in-worklet handleMessage mutates. -/
structure SuppressionControl where
  manualSuppressionLevel : ℚ
  currentSuppressionLevel : ℚ
  attenLim : ℚ
deriving DecidableEq, Repr

/-- The in-worklet handleMessage SET_SUPPRESSION_LEVEL case
(src/worklet/DeepFilterWorklet.ts): floor the value, clamp it into [0, 100],
store it as the manual level, and, when dynamic suppression is off, apply it as
the current level and the model's attenuation limit. -/
def workletSetSuppressionLevel (dfModelSome dynamicSuppressionEnabled : Bool)
    (st : SuppressionControl) (value : ℚ) : SuppressionControl :=
  if dfModelSome = true then
    let level : ℚ := max 0 (min 100 (⌊value⌋ : ℚ))
    let st1 := { st with manualSuppressionLevel := level }
    if ¬ dynamicSuppressionEnabled = true then
      { st1 with currentSuppressionLevel := level, attenLim := level }
    else st1
  else st

/-! ### Concrete fixtures used by witnesses and counterexamples -/

/-- The square root function on the inputs where the C7 witness needs it. -/
def sqrtZero : ℚ → ℚ := fun _ => 0

/-- The square root function on the inputs where the C8 counterexample needs
it: the C8 frame's mean square is 1/2500, whose root is 1/50. -/
def sqrtC8 : ℚ → ℚ := fun _ => 1 / 50

/-- A 20-sample frame: 13 samples at +0.02 followed by 7 alternating ±0.02.
Its rms is exactly 0.02 and it has exactly 7 sign crossings, so its
zero-crossing rate is 7/20 = 0.35 exactly. -/
def frameC8 : List ℚ :=
  [1 / 50, 1 / 50, 1 / 50, 1 / 50, 1 / 50, 1 / 50, 1 / 50, 1 / 50, 1 / 50, 1 / 50,
   1 / 50, 1 / 50, 1 / 50, -(1 / 50), 1 / 50, -(1 / 50), 1 / 50, -(1 / 50), 1 / 50,
   -(1 / 50)]

/-- A freshly initialized analysis state: empty histories, manual and current
levels at the default 50. -/
def a0C8 : AnalysisState := ⟨[], [], 50, 50⟩

/-- The identity on sample values (a model stand-in that leaves frames
untouched; the C3 tick never reaches the model anyway). -/
def idQ : ℚ → ℚ := fun q => q

/-- The identity frame transform. -/
def idFrame : List ℚ → List ℚ := fun f => f

/-- The concrete in-worklet processor state for the C3 failing tick: model
initialized with frame length 130 (so bufferSize = 4·130 = 520), bypass off,
dynamic suppression off, both internal rings empty. -/
def stC3 : WorkletState :=
  ⟨true, true, false, true, false, 130, 520, List.replicate 520 0,
   List.replicate 520 0, 0, 0, 0, 0, ⟨[], [], 50, 50⟩, 50⟩

/-! ### Properties of the copy loop -/

theorem copy_length (input : List ℚ) (oi : Nat) (output : List ℚ) (oo size : Nat) :
    (copy input oi output oo size).length = output.length := by
  induction size generalizing oi output oo with
  | zero => rfl
  | succ s ih => rw [copy, ih, List.length_set]

theorem getD_set_self (l : List ℚ) (n : Nat) (a : ℚ) (h : n < l.length) :
    (l.set n a).getD n 0 = a := by
  simp [List.getD, List.getElem?_set_self, h]

theorem getD_set_of_ne (l : List ℚ) (n m : Nat) (a : ℚ) (h : m ≠ n) :
    (l.set n a).getD m 0 = l.getD m 0 := by
  simp [List.getD, List.getElem?_set_ne (fun e => h e.symm)]

/-- What the copy loop leaves at index `j`: the copied element when `j` lies in
the destination window, the old content otherwise. -/
theorem copy_getD (input : List ℚ) (oi : Nat) (output : List ℚ) (oo size j : Nat)
    (h : oo + size ≤ output.length) :
    (copy input oi output oo size).getD j 0 =
      if oo ≤ j ∧ j < oo + size then input.getD (oi + (j - oo)) 0 else output.getD j 0 := by
  induction size generalizing oi output oo with
  | zero =>
      rw [copy, if_neg]
      omega
  | succ s ih =>
      rw [copy, ih]
      · by_cases h1 : oo + 1 ≤ j ∧ j < oo + 1 + s
        · rw [if_pos h1, if_pos (by omega)]
          congr 1
          omega
        · by_cases h2 : j = oo
          · subst h2
            rw [if_neg h1, if_pos (by omega), getD_set_self _ _ _ (by omega)]
            congr 1
            omega
          · rw [if_neg h1, if_neg (by omega), getD_set_of_ne _ _ _ _ h2]
      · rw [List.length_set]
        omega

/-! ### Modular-index arithmetic facts used by the ring-buffer proofs -/

theorem mod_succ_ne (r cap : Nat) (hr : r < cap) (h2 : 2 ≤ cap) : (r + 1) % cap ≠ r := by
  rcases Nat.lt_or_ge (r + 1) cap with h | h
  · rw [Nat.mod_eq_of_lt h]
    omega
  · have hrc : r + 1 = cap := by omega
    rw [hrc, Nat.mod_self]
    omega

theorem mod_add_ne (r N cap : Nat) (hr : r < cap) (hN0 : 0 < N) (hN : N < cap) :
    (r + N) % cap ≠ r := by
  rcases Nat.lt_or_ge (r + N) cap with h | h
  · rw [Nat.mod_eq_of_lt h]
    omega
  · have : (r + N) % cap = r + N - cap := by
      rw [Nat.mod_eq_sub_mod h, Nat.mod_eq_of_lt (by omega)]
    omega

theorem mod_roundtrip (r N cap : Nat) (hr : r < cap) (hN : N < cap) :
    ((r + N) % cap + cap - r) % cap = N := by
  have h1 : (r + N) % cap + cap - r = (r + N) % cap + (cap - r) := by omega
  rw [h1, Nat.mod_add_mod]
  have h2 : r + N + (cap - r) = N + cap := by omega
  rw [h2, Nat.add_mod_right, Nat.mod_eq_of_lt hN]

/-! ### Unfolding lemmas for push and pop -/

/-- Pushing into an empty buffer (`write_ptr = read_ptr = r`) writes
`min (cap - 1) elements.length` elements, split into the tail span at `r` and
the wrapped span at 0. -/
theorem push_empty (cap r : Nat) (storage elements : List ℚ)
    (hcap : 2 ≤ cap) (hr : r < cap) :
    RingBuffer.push ⟨cap, r, r, storage⟩ elements none 0 =
      (min (cap - 1) elements.length,
       ⟨cap, (r + min (cap - 1) elements.length) % cap, r,
        copy elements (0 + min (cap - r) (min (cap - 1) elements.length))
          (copy elements 0 storage r (min (cap - r) (min (cap - 1) elements.length)))
          0
          (min (cap - 1) elements.length -
            min (cap - r) (min (cap - 1) elements.length))⟩) := by
  rw [RingBuffer.push]
  simp only [RingBuffer.storageCapacity, RingBuffer.availableWriteInternal,
    RingBuffer.availableReadInternal, RingBuffer.capacity, Option.getD_none]
  rw [if_neg (mod_succ_ne r cap hr hcap)]
  have h1 : r + cap - r = cap := by omega
  rw [h1, Nat.mod_self, Nat.sub_zero]

/-- Unfolding pop on a non-empty buffer. -/
theorem pop_nonempty (cap wr rd : Nat) (s dest : List ℚ) (h : wr ≠ rd) :
    RingBuffer.pop ⟨cap, wr, rd, s⟩ dest none 0 =
      (min ((wr + cap - rd) % cap) dest.length,
       copy s 0
         (copy s rd dest 0 (min (cap - rd) (min ((wr + cap - rd) % cap) dest.length)))
         (0 + min (cap - rd) (min ((wr + cap - rd) % cap) dest.length))
         (min ((wr + cap - rd) % cap) dest.length -
           min (cap - rd) (min ((wr + cap - rd) % cap) dest.length)),
       ⟨cap, wr, (rd + min ((wr + cap - rd) % cap) dest.length) % cap, s⟩) := by
  rw [RingBuffer.pop]
  simp only [RingBuffer.storageCapacity, RingBuffer.availableReadInternal, Option.getD_none]
  rw [if_neg h]

/-- The storage produced by a push starting at `r` into an empty buffer, read
back by the two pop spans, yields the pushed elements. -/
theorem roundtrip_content (cap r N : Nat) (storage elements dest : List ℚ)
    (hcap2 : 2 ≤ cap) (hr : r < cap) (hst : storage.length = cap)
    (hN : N ≤ cap - 1) (hNe : elements.length = N) (hdest : dest.length = N) :
    copy
      (copy elements (min (cap - r) N) (copy elements 0 storage r (min (cap - r) N)) 0
        (N - min (cap - r) N)) 0
      (copy
        (copy elements (min (cap - r) N) (copy elements 0 storage r (min (cap - r) N)) 0
          (N - min (cap - r) N)) r dest 0 (min (cap - r) N))
      (min (cap - r) N) (N - min (cap - r) N) = elements := by
  set fp := min (cap - r) N with hfp
  set sp := N - fp with hsp
  set s1 := copy elements 0 storage r fp with hs1
  set s2 := copy elements fp s1 0 sp with hs2
  have hfple : fp ≤ cap - r := Nat.min_le_left _ _
  have hfpN : fp ≤ N := Nat.min_le_right _ _
  have hspr : sp ≤ r := by
    rcases Nat.le_total (cap - r) N with h | h
    · have hfpe : fp = cap - r := by rw [hfp]; exact Nat.min_eq_left h
      omega
    · have hfpe : fp = N := by rw [hfp]; exact Nat.min_eq_right h
      omega
  have hs1len : s1.length = cap := by rw [hs1, copy_length, hst]
  have hs2len : s2.length = cap := by rw [hs2, copy_length, hs1len]
  have hA : ∀ j, j < fp → s2.getD (r + j) 0 = elements.getD j 0 := by
    intro j hj
    rw [hs2, copy_getD _ _ _ _ _ _ (by omega), if_neg (by omega), hs1,
      copy_getD _ _ _ _ _ _ (by omega), if_pos (by omega)]
    congr 1
    omega
  have hB : ∀ j, j < sp → s2.getD j 0 = elements.getD (fp + j) 0 := by
    intro j hj
    rw [hs2, copy_getD _ _ _ _ _ _ (by omega), if_pos (by omega), Nat.sub_zero]
  have he1len : (copy s2 r dest 0 fp).length = N := by rw [copy_length, hdest]
  have he2len : (copy s2 0 (copy s2 r dest 0 fp) fp sp).length = N := by
    rw [copy_length, he1len]
  apply List.ext_getElem (by rw [he2len, hNe])
  intro i h1 h2
  have hiN : i < N := by omega
  rw [← List.getD_eq_getElem _ 0 h1, ← List.getD_eq_getElem _ 0 h2]
  by_cases hif : i < fp
  · rw [copy_getD _ _ _ _ _ _ (by omega), if_neg (by omega),
      copy_getD _ _ _ _ _ _ (by omega), if_pos (by omega), Nat.sub_zero]
    exact hA i hif
  · rw [copy_getD _ _ _ _ _ _ (by omega), if_pos (by omega), Nat.zero_add]
    rw [hB (i - fp) (by omega)]
    congr 1
    omega

/-- Claim C1: pushing `N ≤ C` elements into an empty ring buffer of usable
capacity `C = cap - 1` (write and read index both at an arbitrary `r`,
exercising the wraparound spans) writes all `N` of them, keeps the storage
length intact (the two spans stay inside the backing array), and a subsequent
pop of `N` elements returns exactly the pushed elements, in order. -/
theorem C1_push_then_pop (cap r : Nat) (storage elements dest : List ℚ)
    (hcap : 1 ≤ cap) (hr : r < cap) (hst : storage.length = cap)
    (hN : elements.length ≤ cap - 1) (hdest : dest.length = elements.length) :
    (RingBuffer.push ⟨cap, r, r, storage⟩ elements none 0).1 = elements.length ∧
    (RingBuffer.push ⟨cap, r, r, storage⟩ elements none 0).2.storage.length = cap ∧
    ((RingBuffer.push ⟨cap, r, r, storage⟩ elements none 0).2.pop dest none 0).1 =
      elements.length ∧
    ((RingBuffer.push ⟨cap, r, r, storage⟩ elements none 0).2.pop dest none 0).2.1 =
      elements := by
  by_cases hcap1 : cap = 1
  · subst hcap1
    have hr0 : r = 0 := by omega
    subst hr0
    have he : elements = [] := List.length_eq_zero.mp (by omega)
    have hd : dest = [] := List.length_eq_zero.mp (by omega)
    subst he
    subst hd
    refine ⟨?_, ?_, ?_, ?_⟩ <;>
      simp [RingBuffer.push, RingBuffer.pop, RingBuffer.storageCapacity, hst]
  · have hcap2 : 2 ≤ cap := by omega
    by_cases hN0 : elements.length = 0
    · have he : elements = [] := List.length_eq_zero.mp hN0
      have hd : dest = [] := List.length_eq_zero.mp (by omega)
      subst he
      subst hd
      have hfull : (r + 1) % cap ≠ r := mod_succ_ne r cap hr hcap2
      refine ⟨?_, ?_, ?_, ?_⟩ <;>
        simp [RingBuffer.push, RingBuffer.pop, RingBuffer.storageCapacity,
          RingBuffer.availableWriteInternal, RingBuffer.availableReadInternal,
          RingBuffer.capacity, copy, hfull, Nat.mod_eq_of_lt hr, hst]
    · have hmin : min (cap - 1) elements.length = elements.length := Nat.min_eq_right hN
      have hne : (r + elements.length) % cap ≠ r :=
        mod_add_ne r elements.length cap hr (by omega) (by omega)
      rw [push_empty cap r storage elements hcap2 hr, hmin]
      dsimp only
      rw [pop_nonempty cap _ r _ dest hne,
        mod_roundtrip r elements.length cap hr (by omega), hdest, Nat.min_self]
      dsimp only
      refine ⟨rfl, ?_, rfl, ?_⟩
      · rw [copy_length, copy_length, hst]
      · simp only [Nat.zero_add]
        exact roundtrip_content cap r elements.length storage elements dest hcap2 hr hst hN
          rfl hdest

/-- Claim C2: pushing `C + k` elements (`k > 0`) into an empty buffer of usable
capacity `C = cap - 1` in one call writes exactly `C`, leaves
`availableWrite() = 0`, and a further push (with any arguments) before any pop
returns `0` and leaves the buffer completely untouched. -/
theorem C2_overflow_push (cap r k : Nat) (storage elements es2 : List ℚ)
    (length? : Option Nat) (offset : Nat)
    (hcap : 1 ≤ cap) (hr : r < cap) (hk : 1 ≤ k)
    (hlen : elements.length = (cap - 1) + k) :
    (RingBuffer.push ⟨cap, r, r, storage⟩ elements none 0).1 = cap - 1 ∧
    (RingBuffer.push ⟨cap, r, r, storage⟩ elements none 0).2.availableWrite = 0 ∧
    (RingBuffer.push ⟨cap, r, r, storage⟩ elements none 0).2.push es2 length? offset =
      (0, (RingBuffer.push ⟨cap, r, r, storage⟩ elements none 0).2) := by
  by_cases hcap1 : cap = 1
  · subst hcap1
    have hr0 : r = 0 := by omega
    subst hr0
    refine ⟨?_, ?_, ?_⟩ <;>
      simp [RingBuffer.push, RingBuffer.availableWrite, RingBuffer.availableWriteInternal,
        RingBuffer.availableReadInternal, RingBuffer.capacity, RingBuffer.storageCapacity]
  · have hcap2 : 2 ≤ cap := by omega
    have hmin2 : min (cap - 1) elements.length = cap - 1 := Nat.min_eq_left (by omega)
    rw [push_empty cap r storage elements hcap2 hr, hmin2]
    dsimp only
    have hfull : ((r + (cap - 1)) % cap + 1) % cap = r := by
      rw [Nat.mod_add_mod]
      have h1 : r + (cap - 1) + 1 = r + cap := by omega
      rw [h1, Nat.add_mod_right, Nat.mod_eq_of_lt hr]
    refine ⟨rfl, ?_, ?_⟩
    · simp only [RingBuffer.availableWrite, RingBuffer.availableWriteInternal,
        RingBuffer.availableReadInternal, RingBuffer.capacity, RingBuffer.storageCapacity]
      rw [mod_roundtrip r (cap - 1) cap hr (by omega)]
      omega
    · rw [RingBuffer.push]
      simp only [RingBuffer.storageCapacity]
      rw [if_pos hfull]

/-- Witness for C1 at a concrete wrapping instance: capacity 3 buffer, indices
at 3 (so the push wraps), three elements. -/
theorem C1_push_then_pop_witness :
    ([1, 2, 3] : List ℚ).length ≤ 4 - 1 ∧
    (RingBuffer.push ⟨4, 3, 3, [0, 0, 0, 0]⟩ [1, 2, 3] none 0).1 = 3 ∧
    ((RingBuffer.push ⟨4, 3, 3, [0, 0, 0, 0]⟩ [1, 2, 3] none 0).2.pop [0, 0, 0] none
        0).2.1 = [1, 2, 3] :=
  ⟨by decide,
   by
    have h := C1_push_then_pop 4 3 [0, 0, 0, 0] [1, 2, 3] [0, 0, 0] (by decide) (by decide)
      (by decide) (by decide) (by decide)
    exact ⟨h.1, h.2.2.2⟩⟩

/-- Witness for C2: capacity 2 buffer (usable C = 2), pushing 3 = C + 1
elements starting at index 2. -/
theorem C2_overflow_push_witness :
    ([1, 2, 3] : List ℚ).length = (3 - 1) + 1 ∧
    (RingBuffer.push ⟨3, 2, 2, [0, 0, 0]⟩ [1, 2, 3] none 0).1 = 3 - 1 ∧
    (RingBuffer.push ⟨3, 2, 2, [0, 0, 0]⟩ [1, 2, 3] none 0).2.availableWrite = 0 ∧
    (RingBuffer.push ⟨3, 2, 2, [0, 0, 0]⟩ [1, 2, 3] none 0).2.push [7] none 0 =
      (0, (RingBuffer.push ⟨3, 2, 2, [0, 0, 0]⟩ [1, 2, 3] none 0).2) :=
  ⟨by decide,
   C2_overflow_push 3 2 1 [0, 0, 0] [1, 2, 3] [7] none 0 (by decide) (by decide) (by decide)
     (by decide)⟩

/-- Claim C5: popping from a ring buffer whose write index equals its read
index (empty) returns 0, leaves the destination untouched and the buffer
unchanged; AudioReader.dequeue behaves the same. -/
theorem C5_pop_empty (rb : RingBuffer) (dest : List ℚ) (length? : Option Nat)
    (offset : Nat) (h : rb.write_ptr = rb.read_ptr) :
    rb.pop dest length? offset = (0, dest, rb) ∧
    AudioReader.dequeue rb dest = (0, dest, rb) := by
  constructor
  · rw [RingBuffer.pop]
    simp only [h, if_pos]
  · rw [AudioReader.dequeue, if_pos]
    simp [RingBuffer.isEmpty, h]

/-- Witness for C5 at a concrete empty buffer and destination. -/
theorem C5_pop_empty_witness :
    (⟨4, 2, 2, [0, 0, 0, 0]⟩ : RingBuffer).write_ptr =
      (⟨4, 2, 2, [0, 0, 0, 0]⟩ : RingBuffer).read_ptr ∧
    RingBuffer.pop ⟨4, 2, 2, [0, 0, 0, 0]⟩ [5, 6] none 0 =
      (0, [5, 6], ⟨4, 2, 2, [0, 0, 0, 0]⟩) :=
  ⟨rfl, (C5_pop_empty ⟨4, 2, 2, [0, 0, 0, 0]⟩ [5, 6] none 0 rfl).1⟩

/-- Claim C6 counterexample: constructing a ring buffer with capacity 0 (a
capacity ≤ 0) does NOT fail: getStorageForCapacity performs no validation,
returns a 12-byte storage (Float32), and the constructor succeeds, yielding a
buffer that reports usable capacity 0. -/
theorem C6_counterexample :
    getStorageForCapacity 0 4 = 12 ∧
    (RingBuffer.construct (getStorageForCapacity 0 4) 4).isSome = true ∧
    (RingBuffer.construct (getStorageForCapacity 0 4) 4).map RingBuffer.capacity =
      some 0 := by
  decide

/-- Claim C6 (amended): construction performs no capacity validation.  For
every capacity ≥ 0 (including 0), getStorageForCapacity allocates exactly
`capacity + 1` element slots (8 header bytes plus `(capacity+1)·BPE`), and the
constructor succeeds on that storage with `_capacity = capacity + 1`. -/
theorem C6_construct_no_validation (c bpe : Nat) (hb : 0 < bpe) :
    getStorageForCapacity c bpe = 8 + (c + 1) * bpe ∧
    RingBuffer.construct (getStorageForCapacity c bpe) bpe =
      some ⟨c + 1, 0, 0, List.replicate (c + 1) 0⟩ := by
  have h : (getStorageForCapacity c bpe - 8) / bpe = c + 1 := by
    rw [getStorageForCapacity, Nat.add_sub_cancel_left, Nat.mul_div_cancel _ hb]
  have hle : 8 ≤ getStorageForCapacity c bpe := by
    rw [getStorageForCapacity]
    exact Nat.le_add_right 8 _
  refine ⟨rfl, ?_⟩
  rw [RingBuffer.construct, if_pos hle, h]

/-- Witness for the amended C6 at capacity 3, Float32 elements. -/
theorem C6_construct_no_validation_witness :
    0 < 4 ∧
    RingBuffer.construct (getStorageForCapacity 3 4) 4 =
      some ⟨4, 0, 0, List.replicate 4 0⟩ :=
  ⟨by decide, (C6_construct_no_validation 3 4 (by decide)).2⟩

/-- Claim C10: allocation/capacity round trip: a ring buffer constructed from
`getStorageForCapacity c type` reports `capacity() = c` (the allocated slot
count minus the reserved slot). -/
theorem C10_capacity_roundtrip (c bpe : Nat) (hc : 0 < c) (hb : 0 < bpe) :
    (RingBuffer.construct (getStorageForCapacity c bpe) bpe).map RingBuffer.capacity =
      some c := by
  have h : (getStorageForCapacity c bpe - 8) / bpe = c + 1 := by
    rw [getStorageForCapacity, Nat.add_sub_cancel_left, Nat.mul_div_cancel _ hb]
  have hle : 8 ≤ getStorageForCapacity c bpe := by
    rw [getStorageForCapacity]
    exact Nat.le_add_right 8 _
  rw [RingBuffer.construct, if_pos hle, h]
  simp [RingBuffer.capacity]

/-- Witness for C10 at the capacity 255 used by the raw channel, Float32. -/
theorem C10_capacity_roundtrip_witness :
    0 < 255 ∧ 0 < 4 ∧
    (RingBuffer.construct (getStorageForCapacity 255 4) 4).map RingBuffer.capacity =
      some 255 :=
  ⟨by decide, by decide, C10_capacity_roundtrip 255 4 (by decide) (by decide)⟩

/-- The sum of squares of an all-zero frame is 0. -/
theorem sumSq_replicate_zero (n : Nat) :
    (List.replicate n (0 : ℚ)).foldl (fun s x => s + x * x) 0 = 0 := by
  induction n with
  | zero => rfl
  | succ m ih =>
      rw [List.replicate_succ, List.foldl_cons]
      simpa using ih

/-- Claim C7: on a frame of all-zero samples (any positive length), the
controller's unsmoothed target level is exactly 85, because the frame's RMS
(the square root of the zero mean square) is 0, below the silence threshold
0.001.  (The JavaScript computation divides by the frame length, so the claim
is stated for non-empty frames.) -/
theorem C7_silence_target (sqrt : ℚ → ℚ) (a : AnalysisState) (n : Nat) (hn : 0 < n)
    (hs : sqrt (calculateRMSSq (List.replicate n 0)) *
        sqrt (calculateRMSSq (List.replicate n 0)) =
      calculateRMSSq (List.replicate n 0)) :
    dynamicTargetLevel sqrt a (List.replicate n 0) = 85 := by
  have hmsq : calculateRMSSq (List.replicate n 0) = 0 := by
    rw [calculateRMSSq, sumSq_replicate_zero, zero_div]
  rw [hmsq] at hs
  have hrms : sqrt (calculateRMSSq (List.replicate n 0)) = 0 := by
    rw [hmsq]
    exact mul_self_eq_zero.mp hs
  simp only [dynamicTargetLevel]
  rw [hrms, decisionTarget, if_pos (by rw [silenceEnergyThreshold]; norm_num)]

/-- Witness for C7 on the concrete all-zero frame of length 3. -/
theorem C7_silence_target_witness :
    0 < 3 ∧
    sqrtZero (calculateRMSSq (List.replicate 3 0)) *
        sqrtZero (calculateRMSSq (List.replicate 3 0)) =
      calculateRMSSq (List.replicate 3 0) ∧
    dynamicTargetLevel sqrtZero ⟨[], [], 50, 50⟩ (List.replicate 3 0) = 85 :=
  have hmsq : calculateRMSSq (List.replicate 3 0) = 0 := by
    rw [calculateRMSSq, sumSq_replicate_zero, zero_div]
  have hs : sqrtZero (calculateRMSSq (List.replicate 3 0)) *
      sqrtZero (calculateRMSSq (List.replicate 3 0)) =
    calculateRMSSq (List.replicate 3 0) := by
    rw [hmsq]
    simp [sqrtZero]
  ⟨by decide, hs, C7_silence_target sqrtZero ⟨[], [], 50, 50⟩ 3 (by decide) hs⟩

/-- Claim C8 counterexample: a frame with rms = 0.02 > 0.01 and avgZCR exactly
0.35 (included by the claim): the code's third branch requires avgZCR > 0.35
strictly, so the controller falls through to the default branch and the
unsmoothed target is the manual level 50, not 45. -/
theorem C8_counterexample :
    sqrtC8 (calculateRMSSq frameC8) * sqrtC8 (calculateRMSSq frameC8) =
      calculateRMSSq frameC8 ∧
    speechEnergyThreshold < sqrtC8 (calculateRMSSq frameC8) ∧
    listAvg (updateHistories a0C8 (sqrtC8 (calculateRMSSq frameC8))
        (calculateZCR frameC8)).2 = speechZcrMax ∧
    dynamicTargetLevel sqrtC8 a0C8 frameC8 = 50 ∧
    (50 : ℚ) ≠ 45 := by
  have hsq : sqrtC8 (calculateRMSSq frameC8) = 1 / 50 := rfl
  have hrms : calculateRMSSq frameC8 = 1 / 2500 := by
    norm_num [calculateRMSSq, frameC8]
  have hz : calculateZCR frameC8 = 7 / 20 := by
    norm_num [calculateZCR, countCrossings, frameC8]
  have hupd : updateHistories a0C8 (1 / 50) (7 / 20) = ([1 / 50], [7 / 20]) := by
    norm_num [updateHistories, a0C8, historySize]
  have havg : listAvg [(7 : ℚ) / 20] = 7 / 20 := by
    norm_num [listAvg]
  refine ⟨?_, ?_, ?_, ?_, ?_⟩
  · rw [hsq, hrms]
    norm_num
  · rw [hsq, speechEnergyThreshold]
    norm_num
  · rw [hsq, hz, hupd, havg, speechZcrMax]
  · simp only [dynamicTargetLevel]
    rw [hsq, hz, hupd]
    simp only [havg]
    rw [decisionTarget,
      if_neg (by rw [silenceEnergyThreshold]; norm_num),
      if_neg (by rw [speechZcrMax]; rintro ⟨-, -, h⟩; exact lt_irrefl _ h),
      if_neg (by rw [speechZcrMax]; rintro ⟨-, h⟩; exact lt_irrefl _ h),
      if_neg (by rw [speechEnergyThreshold]; rintro ⟨-, h⟩; norm_num at h)]
    rfl
  · norm_num

/-- Claim C8 (amended): the fixed target 45 is produced exactly when
rms > speechEnergyThreshold and avgZCR is STRICTLY greater than
speechZcrMax = 0.35 (at equality the branch is not taken). -/
theorem C8_unvoiced_target (rms avgEnergy avgZCR normalizedCentroid manualLevel : ℚ)
    (h1 : speechEnergyThreshold < rms) (h2 : speechZcrMax < avgZCR) :
    decisionTarget rms avgEnergy avgZCR normalizedCentroid manualLevel = 45 := by
  rw [decisionTarget,
    if_neg (not_lt.mpr (le_of_lt (lt_of_le_of_lt
      (by rw [silenceEnergyThreshold, speechEnergyThreshold]; norm_num) h1))),
    if_neg (fun hcon => absurd hcon.2.2 (not_lt.mpr (le_of_lt h2))),
    if_pos ⟨h1, h2⟩]

/-- Witness for the amended C8: rms = 0.02, avgZCR = 0.4 > 0.35. -/
theorem C8_unvoiced_target_witness :
    (speechEnergyThreshold < (1 / 50 : ℚ) ∧ speechZcrMax < (2 / 5 : ℚ)) ∧
    decisionTarget (1 / 50) (1 / 50) (2 / 5) 0 50 = 45 :=
  ⟨⟨by rw [speechEnergyThreshold]; norm_num, by rw [speechZcrMax]; norm_num⟩,
   C8_unvoiced_target (1 / 50) (1 / 50) (2 / 5) 0 50
     (by rw [speechEnergyThreshold]; norm_num) (by rw [speechZcrMax]; norm_num)⟩

/-- Claim C9: the smoothing step at current level 50, unsmoothed target 85 and
smoothing factor 0.3 yields floor(50·0.7 + 85·0.3) = floor(60.5) = 60, which
the final [10, 95] clamp leaves unchanged. -/
theorem C9_smoothing : applySmoothing 50 85 = 60 := by
  have h : (50 : ℚ) * (1 - smoothingFactor) + 85 * smoothingFactor = 121 / 2 := by
    rw [smoothingFactor]
    norm_num
  have hf : ⌊(121 / 2 : ℚ)⌋ = 60 := by
    rw [Int.floor_eq_iff]
    norm_num
  rw [applySmoothing]
  simp only [h, hf]
  norm_num

set_option maxRecDepth 40000 in
/-- Claim C3 at its failing input (code bug): a real-time tick of the
in-worklet processor that is initialized, not bypassed, and has fewer than 128
denoised samples available leaves the output channel exactly as it was (the
platform-fresh zero buffer) instead of an explicit pass-through copy of the
128-sample input quantum: the produced output differs from the input. -/
theorem C3_underrun_not_passthrough :
    (processTick idQ idFrame stC3 [[List.replicate 128 1]]
        [[List.replicate 128 0]]).1 = [[List.replicate 128 0]] ∧
    [[List.replicate 128 (0 : ℚ)]] ≠ [[List.replicate 128 (1 : ℚ)]] := by
  constructor
  · decide
  · decide

/-- Claim C4 counterexample: the SAB worker's SET_SUPPRESSION_LEVEL with the
out-of-range level 150 does not clamp to the boundary: the attenuation limit
stays at its previous value 50 instead of 100 — the request is silently
discarded. -/
theorem C4_counterexample :
    workerSetSuppressionLevel true 50 150 = 50 ∧ (50 : ℚ) ≠ 100 := by
  decide

/-- Claim C4 (amended): only the in-worklet handleMessage clamps: with a model
present and dynamic suppression off it floors the value, clamps it into
[0, 100] (so values above 100 apply 100 and values below 0 apply 0) and sets
the model's attenuation limit accordingly, without error; the SAB worker
instead silently ignores any level outside [0, 100], leaving the attenuation
limit unchanged (also without error). -/
theorem C4_set_level_clamping (st : SuppressionControl) (value attenLim lvl : ℚ)
    (hout : lvl < 0 ∨ 100 < lvl) :
    (workletSetSuppressionLevel true false st value).attenLim =
      max 0 (min 100 (⌊value⌋ : ℚ)) ∧
    (100 < value → (workletSetSuppressionLevel true false st value).attenLim = 100) ∧
    (value < 0 → (workletSetSuppressionLevel true false st value).attenLim = 0) ∧
    workerSetSuppressionLevel true attenLim lvl = attenLim := by
  have hbase : (workletSetSuppressionLevel true false st value).attenLim =
      max 0 (min 100 (⌊value⌋ : ℚ)) := by
    simp [workletSetSuppressionLevel]
  refine ⟨hbase, ?_, ?_, ?_⟩
  · intro h
    have h1 : (100 : ℤ) ≤ ⌊value⌋ := Int.le_floor.mpr (by push_cast; linarith)
    have h2 : (100 : ℚ) ≤ (⌊value⌋ : ℚ) := by exact_mod_cast h1
    rw [hbase, min_eq_left h2]
    norm_num
  · intro h
    have h1 : (⌊value⌋ : ℚ) ≤ value := Int.floor_le value
    have h2 : (⌊value⌋ : ℚ) ≤ 0 := le_of_lt (lt_of_le_of_lt h1 h)
    rw [hbase, min_eq_right (le_trans h2 (by norm_num)), max_eq_left h2]
  · rw [workerSetSuppressionLevel, if_neg]
    rintro ⟨-, h0, h100⟩
    rcases hout with h | h
    · exact absurd h0 (not_le.mpr h)
    · exact absurd h100 (not_le.mpr h)

/-- Witness for the amended C4 at value 150 (out of range above). -/
theorem C4_set_level_clamping_witness :
    ((150 : ℚ) < 0 ∨ 100 < (150 : ℚ)) ∧
    (workletSetSuppressionLevel true false ⟨50, 50, 50⟩ 150).attenLim = 100 ∧
    workerSetSuppressionLevel true 50 150 = 50 := by
  have h := C4_set_level_clamping ⟨50, 50, 50⟩ 150 50 150 (Or.inr (by norm_num))
  exact ⟨Or.inr (by norm_num), h.2.1 (by norm_num), h.2.2.2⟩

end DeepFilter
